import Mathlib

set_option maxHeartbeats 1000000

/-!
Verification of the GaruchanResChecker core services, shallowly embedded
from the TypeScript sources: the optimistic-lock storage layer
(`src/services/storage-service.ts`), the cached comment service with LRU
capacity eviction (comment-service, `enforceMaxEntries` / `saveComment`),
the crawl engine (`src/services/crawler-service.ts`) and the pagination
helper (`src/utils/pagination.ts`).

Conventions of the embedding:
* Timestamps (`updatedAt`, `postedAt`, "now") are integer epoch
  milliseconds, the values the source obtains via `new Date(s).getTime()`;
  ISO strings that round-trip through `Date` are identified with their
  millisecond value.
* Records decoded from `browser.storage` may miss fields even though the
  TypeScript interface declares them, and the source guards for this
  (`previousResCount == null`, `previousUnread ?? 0`,
  `current?.version ?? 0`); such fields are `Option`s here.
* Asynchronous effects are threaded explicitly: storage contents are
  passed in and returned, the callbacks injected into `crawlCommentsOnce`
  (`getComment`, `saveComment`, `adjustUnread`) become oracle functions,
  and the observable actions of one crawl step are recorded as
  `CrawlEvent`s in the order the source performs them.
* Storage exceptions (the only thing that makes the optimistic-lock loop
  retry) are modelled by an oracle `throws : Nat → Bool` saying whether
  attempt number `i` raises; a raising attempt persists nothing.
-/

/-- Tracked comment entry, from `CommentEntry` in `src/types/comment.ts`.
The interface declares `resCount`, `unreadCount` and `updatedAt` as always
present and `version` as optional, but records decoded from storage can
miss fields, and the services defensively guard every read of these four
fields, so they are modelled as `Option`s.  `postedAt` is the parsed
`new Date(postedAt).getTime()` value (absent when the stored string is
null). -/
structure CommentEntry where
  topicId : String
  topicTitle : Option String
  commentNumber : String
  postedAt : Option Int
  commentBody : Option String
  resCount : Option Nat
  unreadCount : Option Nat
  createdAt : Nat
  updatedAt : Option Nat
  version : Option Nat
deriving DecidableEq

/-- `PAGINATION.COMMENTS_PER_PAGE` from `src/constants/app-config.ts`. -/
def PAGINATION_COMMENTS_PER_PAGE : Nat := 500

/-- `CRAWLER_CONFIG.SKIP_AFTER_DAYS` from `src/constants/app-config.ts`. -/
def CRAWLER_SKIP_AFTER_DAYS : Nat := 31

/-- `OPTIMISTIC_LOCK.MAX_RETRIES` from `src/constants/app-config.ts`. -/
def OPTIMISTIC_LOCK_MAX_RETRIES : Nat := 3

/-- `COMMENT_ENTRY_CONFIG.MAX_ENTRIES` from `src/constants/app-config.ts`. -/
def COMMENT_ENTRY_MAX_ENTRIES : Nat := 1000

/-- Milliseconds per day, the literal `1000 * 60 * 60 * 24` used in the
age check of `crawlCommentsOnce`. -/
def MS_PER_DAY : Nat := 1000 * 60 * 60 * 24

/-- Value of a maximal leading run of decimal digits, as accumulated by
JavaScript `parseInt(s, 10)` once whitespace and sign are consumed. -/
def digitsToNat (ds : List Char) : Nat :=
  ds.foldl (fun acc c => acc * 10 + (c.toNat - Char.toNat '0')) 0

/-- JavaScript `parseInt(s, 10)`: skip leading whitespace, consume an
optional sign, then a maximal run of decimal digits; `none` models the
`NaN` result produced when no digit follows. -/
def jsParseInt (s : String) : Option Int :=
  let cs := s.toList.dropWhile Char.isWhitespace
  let signAndRest : Int × List Char :=
    match cs with
    | '-' :: rest => (-1, rest)
    | '+' :: rest => (1, rest)
    | _ => (1, cs)
  let ds := signAndRest.2.takeWhile Char.isDigit
  if ds.isEmpty then none
  else some (signAndRest.1 * (digitsToNat ds : Int))

/-- `calculatePageNumber` from `src/utils/pagination.ts`:
`parseInt(commentNumber, 10)`; on `NaN` or a non-positive value return
`'1'`, otherwise `String(Math.floor((n - 1) / COMMENTS_PER_PAGE) + 1)`.
For positive `n` the float floor-division equals natural division. -/
def calculatePageNumber (commentNumber : String) : String :=
  match jsParseInt commentNumber with
  | none => "1"
  | some n =>
    if n ≤ 0 then "1"
    else toString ((n.toNat - 1) / PAGINATION_COMMENTS_PER_PAGE + 1)

/-- `getCommentKey` from `src/services/storage-service.ts`:
`` `${topicId}:${commentNumber}` ``. -/
def getCommentKey (topicId : String) (commentNumber : String) : String :=
  topicId ++ ":" ++ commentNumber

/-- Cache key of an entry, `getCommentKey(entry.topicId, entry.commentNumber)`. -/
def entryKey (c : CommentEntry) : String :=
  getCommentKey c.topicId c.commentNumber

/-- The conflict check of `saveCommentWithOptimisticLock`: a write is
stale exactly when a persisted record exists, both it and the incoming
entry carry an `updatedAt`, and the persisted stamp is strictly later
(`currentTime > entryTime`). -/
def staleCheck (current : Option CommentEntry) (entry : CommentEntry) : Bool :=
  match current with
  | some cur =>
    match cur.updatedAt, entry.updatedAt with
    | some currentTime, some entryTime => decide (currentTime > entryTime)
    | _, _ => false
  | none => false

/-- Record persisted by a non-stale optimistic-lock attempt over the
record `current`: the incoming entry with
`version = (current?.version ?? 0) + 1` and `updatedAt = now`
(the source stamps `new Date().toISOString()`). -/
def lockWriteResult (now : Nat) (current : Option CommentEntry) (e : CommentEntry) : CommentEntry :=
  { e with version := some ((current.bind CommentEntry.version).getD 0 + 1), updatedAt := some now }

/-- One non-raising attempt of `saveCommentWithOptimisticLock`
(`src/services/storage-service.ts`), acting on the record currently
persisted at the entry's key: if a record exists and both it and the
incoming entry carry `updatedAt`, and the persisted one is strictly
newer, return `false` without mutation; otherwise persist the entry with
`version = (current?.version ?? 0) + 1` and `updatedAt = now`.  The
result pairs the returned boolean with the record persisted at the key
afterwards. -/
def saveAttemptOnce (now : Nat) (current : Option CommentEntry)
    (entry : CommentEntry) : Bool × Option CommentEntry :=
  if staleCheck current entry then (false, current)
  else (true, some (lockWriteResult now current entry))

/-- The retry loop of `saveCommentWithOptimisticLock`: attempt `attempt`
with `remaining` attempts left; a raising attempt (`throws attempt`)
persists nothing, sleeps (unobservable here) and retries; when attempts
are exhausted the function returns `false` with the key unchanged.
Nothing else writes to the key between attempts, so the re-read of the
current record yields the same value on every attempt. -/
def saveLockLoop (now : Nat) (throws : Nat → Bool) (entry : CommentEntry)
    (current : Option CommentEntry) : Nat → Nat → Bool × Option CommentEntry
  | _, 0 => (false, current)
  | attempt, remaining + 1 =>
    if throws attempt then
      saveLockLoop now throws entry current (attempt + 1) remaining
    else
      saveAttemptOnce now current entry

/-- `saveCommentWithOptimisticLock(entry, maxRetries = OPTIMISTIC_LOCK.MAX_RETRIES)`
from `src/services/storage-service.ts`, modelled on the single storage key
of the entry: `current` is the record persisted there before the call. -/
def saveCommentWithOptimisticLock (now : Nat) (throws : Nat → Bool)
    (current : Option CommentEntry) (entry : CommentEntry)
    (maxRetries : Nat := OPTIMISTIC_LOCK_MAX_RETRIES) : Bool × Option CommentEntry :=
  saveLockLoop now throws entry current 0 maxRetries

/-- Millisecond timestamp of an entry's `updatedAt` as read by the LRU
comparator `new Date(a.updatedAt).getTime()`; entries written through the
store always carry `updatedAt`, the default only keeps the function
total. -/
def updatedTime (c : CommentEntry) : Nat :=
  c.updatedAt.getD 0

/-- The ascending comparator `(a, b) => timeA - timeB` used by
`enforceMaxEntries` to sort by `updatedAt`; JavaScript `Array.sort` is
stable, matched here by `List.mergeSort`. -/
def byUpdatedAt (a b : CommentEntry) : Bool :=
  decide (updatedTime a ≤ updatedTime b)

/-- `deleteComment(topicId, commentNumber)` of the comment service as it
acts on the cache (`Map.delete` on the entry's key): remove the records
bearing that key. -/
def deleteKeyFromCache (cache : List CommentEntry) (topicId : String)
    (commentNumber : String) : List CommentEntry :=
  cache.filter (fun c => !(entryKey c == getCommentKey topicId commentNumber))

/-- `enforceMaxEntries` of the comment service, parameterised by the
`maxEntries` bound it reads from `COMMENT_ENTRY_CONFIG.MAX_ENTRIES`: when
the cached entry count exceeds the bound, sort ascending by `updatedAt`,
take the first `count - maxEntries` entries and delete each one by key. -/
def enforceMaxEntriesWith (maxEntries : Nat) (cache : List CommentEntry) :
    List CommentEntry :=
  if cache.length ≤ maxEntries then cache
  else
    let deleteCount := cache.length - maxEntries
    let sortedComments := cache.mergeSort byUpdatedAt
    let toDelete := sortedComments.take deleteCount
    toDelete.foldl (fun acc d => deleteKeyFromCache acc d.topicId d.commentNumber) cache

/-- `enforceMaxEntries` at the configured bound. -/
def enforceMaxEntries (cache : List CommentEntry) : List CommentEntry :=
  enforceMaxEntriesWith COMMENT_ENTRY_MAX_ENTRIES cache

/-- `commentCache.set(key, updatedEntry)`: a JavaScript `Map.set` replaces
the value of an existing key in place and otherwise appends the binding in
insertion order. -/
def cacheSet (cache : List CommentEntry) (e : CommentEntry) : List CommentEntry :=
  if cache.any (fun c => entryKey c == entryKey e) then
    cache.map (fun c => if entryKey c == entryKey e then e else c)
  else cache ++ [e]

/-- `saveComment` of the comment service: write through
`saveCommentWithOptimisticLock` (the persisted record for the key is the
cached one, the cache being a write-through mirror), on success re-read
the just-written record into the cache and run `enforceMaxEntries`;
on rejection return `null` leaving the cache untouched. -/
def serviceSaveComment (now : Nat) (throws : Nat → Bool)
    (cache : List CommentEntry) (entry : CommentEntry) :
    Option CommentEntry × List CommentEntry :=
  match saveCommentWithOptimisticLock now throws
      (cache.find? (fun c => entryKey c == entryKey entry)) entry with
  | (true, some updatedEntry) =>
    (some updatedEntry, enforceMaxEntries (cacheSet cache updatedEntry))
  | (true, none) => (none, cache)
  | (false, _) => (none, cache)

/-- Observable actions of one entry's reconciliation inside
`crawlCommentsOnce`: a remote fetch of the reply count, a `saveComment`
call together with its result, and an `adjustUnread` call.  The adjust
argument is `none` when the subtraction `unreadCount - previousUnread`
involved a missing `previousUnread` (JavaScript `NaN`). -/
inductive CrawlEvent where
  | fetch (topicId : String) (commentNumber : String)
  | save (entry : CommentEntry) (result : Option CommentEntry)
  | adjust (delta : Option Int)
deriving DecidableEq

/-- Environment of one crawl cycle: the clock, the successive reads of the
`local:crawler:enabled` storage flag (the source applies `?? true` to each
read), the outcome of `fetchResCountForComment`, and the injected
`getComment` / `saveComment` callbacks of `crawlCommentsOnce`. -/
structure CrawlEnv where
  now : Nat
  enabledReads : Nat → Option Bool
  fetchResCount : String → String → Option Nat
  getComment : String → String → Option CommentEntry
  saveComment : CommentEntry → Option CommentEntry

/-- The age guard of `crawlCommentsOnce`: when `postedAt` is present,
skip the entry if `elapsedDays = (now - postedDate) / MS_PER_DAY` is at
least `SKIP_AFTER_DAYS`; dividing by the positive constant is equivalent
to comparing against `SKIP_AFTER_DAYS * MS_PER_DAY` directly. -/
def shouldSkipByAge (now : Nat) (c : CommentEntry) : Bool :=
  match c.postedAt with
  | some postedDate =>
    decide ((CRAWLER_SKIP_AFTER_DAYS : Int) * (MS_PER_DAY : Int) ≤ (now : Int) - postedDate)
  | none => false

/-- The updated entry built by the crawl loop when it detects a change:
`{ ...previousComment, resCount: currentResCount, unreadCount, updatedAt: new Date().toISOString() }`. -/
def reconciledEntry (now : Nat) (prev : CommentEntry) (currentResCount : Nat)
    (newUnread : Nat) : CommentEntry :=
  { prev with
    resCount := some currentResCount,
    unreadCount := some newUnread,
    updatedAt := some now }

/-- One iteration of the entry loop of `crawlCommentsOnce`
(`src/services/crawler-service.ts`): resolve the cached previous entry
(`getComment(...) ?? comment`), skip dormant entries by age, fetch the
remote reply count (skip on `null`), compute
`unreadCount = previousResCount == null ? 0 : current - previous + (previousUnread ?? 0)`
clamped by `Math.max(0, ·)`, and when `delta !== 0 || resChanged` persist
the updated entry, adjusting the unread total by `delta` only when the
persist succeeded.  Returns the increment of `updatedCount` and the
emitted events. -/
def processComment (env : CrawlEnv) (comment : CommentEntry) : Nat × List CrawlEvent :=
  let previousComment := (env.getComment comment.topicId comment.commentNumber).getD comment
  let previousResCount := previousComment.resCount
  let previousUnread := previousComment.unreadCount
  if shouldSkipByAge env.now previousComment then (0, [])
  else
    match env.fetchResCount comment.topicId comment.commentNumber with
    | none => (0, [CrawlEvent.fetch comment.topicId comment.commentNumber])
    | some currentResCount =>
      let unreadRaw : Int :=
        match previousResCount with
        | none => 0
        | some p => (currentResCount : Int) - (p : Int) + ((previousUnread.getD 0 : Nat) : Int)
      let unreadCount : Int := max 0 unreadRaw
      let delta : Option Int := previousUnread.map (fun (pu : Nat) => unreadCount - (pu : Int))
      let resChanged : Bool := !(some currentResCount == previousResCount)
      if (delta != some 0) || resChanged then
        let updatedEntry : CommentEntry :=
          reconciledEntry env.now previousComment currentResCount unreadCount.toNat
        match env.saveComment updatedEntry with
        | some saved =>
          if delta != some 0 then
            (1, [CrawlEvent.fetch comment.topicId comment.commentNumber,
                 CrawlEvent.save updatedEntry (some saved),
                 CrawlEvent.adjust delta])
          else
            (1, [CrawlEvent.fetch comment.topicId comment.commentNumber,
                 CrawlEvent.save updatedEntry (some saved)])
        | none =>
          (0, [CrawlEvent.fetch comment.topicId comment.commentNumber,
               CrawlEvent.save updatedEntry none])
      else (0, [CrawlEvent.fetch comment.topicId comment.commentNumber])

/-- The entry loop of `crawlCommentsOnce` with the enabled flag read
before each entry and re-read after the per-entry delay (the `finally`
block runs even on `continue`, so each processed entry consumes two
reads); a `false` read breaks out of the loop.  `ridx` indexes the next
read of `env.enabledReads`.  Returns the number of updated entries and
the concatenated events. -/
def crawlLoop (env : CrawlEnv) : List CommentEntry → Nat → Nat × List CrawlEvent
  | [], _ => (0, [])
  | comment :: rest, ridx =>
    if ((env.enabledReads ridx).getD true) = false then (0, [])
    else
      let step := processComment env comment
      if ((env.enabledReads (ridx + 1)).getD true) = false then step
      else
        let restResult := crawlLoop env rest (ridx + 2)
        (step.1 + restResult.1, step.2 ++ restResult.2)

/-- Mutable state surrounding a crawl invocation: the module-level
`isCrawling` reentrancy flag, plus the log of effects performed so far
(fetches, saves, unread adjustments). -/
structure CrawlState where
  isCrawling : Bool
  events : List CrawlEvent
deriving DecidableEq

/-- `crawlCommentsOnce(commentList, getComment, saveComment, adjustUnread)`:
a call made while `isCrawling` is set returns 0 immediately, performing
nothing; otherwise the flag is set, an empty list short-circuits to 0,
the entry loop runs, and the `finally` block clears the flag before
returning the updated-entry count. -/
def crawlCommentsOnce (env : CrawlEnv) (s : CrawlState)
    (commentList : List CommentEntry) : Nat × CrawlState :=
  if s.isCrawling then (0, s)
  else
    if commentList.isEmpty then (0, { s with isCrawling := false })
    else
      let result := crawlLoop env commentList 0
      (result.1, { isCrawling := false, events := s.events ++ result.2 })

/-- First `saveComment` call recorded in an event list: the entry the
crawler attempted to persist. -/
def savedEntryOfEvents : List CrawlEvent → Option CommentEntry
  | [] => none
  | CrawlEvent.save e _ :: _ => some e
  | _ :: rest => savedEntryOfEvents rest

/-- Sample entry used to instantiate proved theorems. -/
def wEntry : CommentEntry :=
  { topicId := "123", topicTitle := none, commentNumber := "45",
    postedAt := some 0, commentBody := none, resCount := some 5,
    unreadCount := some 5, createdAt := 0, updatedAt := some 10, version := some 1 }

/-- Sample crawl environment used to instantiate proved theorems: the
enabled flag always reads true, every fetch observes 7 replies, the cache
misses, and every persist succeeds; the clock stands 31 days after epoch
time 0. -/
def wEnv : CrawlEnv :=
  { now := 31 * MS_PER_DAY, enabledReads := fun _ => some true,
    fetchResCount := fun _ _ => some 7, getComment := fun _ _ => none,
    saveComment := fun e => some e }

/-- Sample entry with no `postedAt` (never skipped by age), tracking 5
replies with 5 unread. -/
def wFreshEntry : CommentEntry :=
  { wEntry with postedAt := none }

/-- Sample entry whose persisted record regressed: 8 replies recorded, 5
unread, no `postedAt`. -/
def wRegEntry : CommentEntry :=
  { wEntry with postedAt := none, resCount := some 8 }

/-- Sample entry whose decoded record misses the `resCount` field. -/
def wNoResEntry : CommentEntry :=
  { wEntry with postedAt := none, resCount := none }

/-- Sample crawl environment observing a regressed remote count of 6. -/
def wEnvReg : CrawlEnv :=
  { wEnv with fetchResCount := fun _ _ => some 6 }

/-- Helper: the optimistic-lock loop rejects a strictly staler entry on
every attempt, throwing or not, leaving the persisted record unchanged. -/
lemma saveLockLoop_stale (now : Nat) (throws : Nat → Bool) (e cur : CommentEntry)
    (ct et : Nat) (h1 : cur.updatedAt = some ct) (h2 : e.updatedAt = some et)
    (h3 : et < ct) :
    ∀ remaining attempt, saveLockLoop now throws e (some cur) attempt remaining = (false, some cur) := by
  intro remaining
  induction remaining with
  | zero => intro attempt; rfl
  | succ k ih =>
    intro attempt
    rw [saveLockLoop]
    by_cases hthrow : throws attempt
    · rw [if_pos hthrow]; exact ih (attempt + 1)
    · rw [if_neg hthrow]
      simp [saveAttemptOnce, staleCheck, h1, h2, h3]

/-- Claim C2: a `put` onto a key whose persisted record exists, where both
records carry `updatedAt` and the persisted one is strictly later, returns
`false` and leaves the persisted record unchanged in every field. -/
theorem save_rejects_stale_write (now : Nat) (throws : Nat → Bool) (maxRetries : Nat)
    (cur entry : CommentEntry) (ct et : Nat)
    (h1 : cur.updatedAt = some ct) (h2 : entry.updatedAt = some et) (h3 : et < ct) :
    saveCommentWithOptimisticLock now throws (some cur) entry maxRetries = (false, some cur) :=
  saveLockLoop_stale now throws entry cur ct et h1 h2 h3 maxRetries 0

/-- Concrete instance of `save_rejects_stale_write`: persisted stamp 100,
incoming stamp 40. -/
theorem save_rejects_stale_write_witness :
    saveCommentWithOptimisticLock 50 (fun _ => false)
        (some { wEntry with updatedAt := some 100 }) { wEntry with updatedAt := some 40 } 3
      = (false, some { wEntry with updatedAt := some 100 }) :=
  save_rejects_stale_write 50 (fun _ => false) 3 _ _ 100 40 rfl rfl (by decide)

/-- Helper: whenever the optimistic-lock loop reports success, the record
it persisted is the incoming entry with version `(current?.version ?? 0) + 1`
and `updatedAt = now`. -/
lemma saveLockLoop_success (now : Nat) (throws : Nat → Bool) (e : CommentEntry)
    (current : Option CommentEntry) :
    ∀ remaining attempt st, saveLockLoop now throws e current attempt remaining = (true, st) →
      st = some (lockWriteResult now current e) := by
  intro remaining
  induction remaining with
  | zero => intro attempt st h; simp [saveLockLoop] at h
  | succ k ih =>
    intro attempt st h
    rw [saveLockLoop] at h
    by_cases hthrow : throws attempt
    · rw [if_pos hthrow] at h; exact ih (attempt + 1) st h
    · rw [if_neg hthrow] at h
      unfold saveAttemptOnce at h
      by_cases hs : staleCheck current e
      · rw [if_pos hs] at h; simp at h
      · rw [if_neg hs] at h
        simp only [Prod.mk.injEq] at h
        exact h.2.symm

/-- Claim C6: every successful `put` persists the entry with
`version = (previous version, absent read as 0) + 1` and
`updatedAt = now`; in particular the persisted version strictly
increases on every successful write to the key. -/
theorem save_success_bumps_version (now : Nat) (throws : Nat → Bool) (maxRetries : Nat)
    (current : Option CommentEntry) (entry : CommentEntry) (st : Option CommentEntry)
    (h : saveCommentWithOptimisticLock now throws current entry maxRetries = (true, st)) :
    ∃ saved, st = some saved ∧
      saved.version = some ((current.bind CommentEntry.version).getD 0 + 1) ∧
      saved.updatedAt = some now ∧
      saved.resCount = entry.resCount ∧
      saved.unreadCount = entry.unreadCount ∧
      (current.bind CommentEntry.version).getD 0 < saved.version.getD 0 := by
  have hst := saveLockLoop_success now throws entry current maxRetries 0 st h
  exact ⟨lockWriteResult now current entry, hst, rfl, rfl, rfl, rfl, by simp [lockWriteResult]⟩

/-- Concrete instance of `save_success_bumps_version`: a first write to an
empty key persists version 1 with the supplied clock value. -/
theorem save_success_bumps_version_witness :
    ∃ saved, (some (lockWriteResult 50 none wEntry) : Option CommentEntry) = some saved ∧
      saved.version = some (((none : Option CommentEntry).bind CommentEntry.version).getD 0 + 1) ∧
      saved.updatedAt = some 50 ∧
      saved.resCount = wEntry.resCount ∧
      saved.unreadCount = wEntry.unreadCount ∧
      ((none : Option CommentEntry).bind CommentEntry.version).getD 0 < saved.version.getD 0 :=
  save_success_bumps_version 50 (fun _ => false) 3 none wEntry _ rfl

/-- Helper: with no storage exceptions the optimistic-lock loop resolves
on its first attempt. -/
lemma saveLockLoop_noThrow (now : Nat) (e : CommentEntry)
    (current : Option CommentEntry) (attempt k : Nat) :
    saveLockLoop now (fun _ => false) e current attempt (k + 1) = saveAttemptOnce now current e := by
  rw [saveLockLoop]
  simp

/-- Helper: repeating one optimistic-lock attempt with an identical
payload leaves the persisted counter fields where the first attempt put
them. -/
lemma saveAttemptOnce_idem (now0 now1 : Nat) (cur : Option CommentEntry) (e : CommentEntry) :
    ((saveAttemptOnce now1 (saveAttemptOnce now0 cur e).2 e).2.map CommentEntry.resCount
       = (saveAttemptOnce now0 cur e).2.map CommentEntry.resCount) ∧
    ((saveAttemptOnce now1 (saveAttemptOnce now0 cur e).2 e).2.map CommentEntry.unreadCount
       = (saveAttemptOnce now0 cur e).2.map CommentEntry.unreadCount) := by
  rcases cur with _ | c
  · rcases h : e.updatedAt with _ | et
    · simp [saveAttemptOnce, staleCheck, lockWriteResult, h]
    · by_cases hc : et < now0 <;>
        simp [saveAttemptOnce, staleCheck, lockWriteResult, h, hc]
  · rcases h1 : c.updatedAt with _ | ct <;> rcases h2 : e.updatedAt with _ | et
    · simp [saveAttemptOnce, staleCheck, lockWriteResult, h1, h2]
    · by_cases hc : et < now0 <;>
        simp [saveAttemptOnce, staleCheck, lockWriteResult, h1, h2, hc]
    · simp [saveAttemptOnce, staleCheck, lockWriteResult, h1, h2]
    · by_cases h3 : et < ct
      · simp [saveAttemptOnce, staleCheck, lockWriteResult, h1, h2, h3]
      · by_cases h4 : et < now0 <;>
          simp [saveAttemptOnce, staleCheck, lockWriteResult, h1, h2, h3, h4]

/-- Claim C7: two successive clean `put`s of an identical payload leave
the same persisted `resCount` and `unreadCount` as a single `put`: the
second call is either a stale rejection or an overwrite carrying the same
counter values. -/
theorem save_idempotent_counts (now0 now1 : Nat) (cur : Option CommentEntry) (e : CommentEntry) :
    ((saveCommentWithOptimisticLock now1 (fun _ => false)
        (saveCommentWithOptimisticLock now0 (fun _ => false) cur e).2 e).2.map CommentEntry.resCount
      = (saveCommentWithOptimisticLock now0 (fun _ => false) cur e).2.map CommentEntry.resCount) ∧
    ((saveCommentWithOptimisticLock now1 (fun _ => false)
        (saveCommentWithOptimisticLock now0 (fun _ => false) cur e).2 e).2.map CommentEntry.unreadCount
      = (saveCommentWithOptimisticLock now0 (fun _ => false) cur e).2.map CommentEntry.unreadCount) := by
  have h0 : saveCommentWithOptimisticLock now0 (fun _ => false) cur e = saveAttemptOnce now0 cur e :=
    saveLockLoop_noThrow now0 e cur 0 2
  have h1 : ∀ c, saveCommentWithOptimisticLock now1 (fun _ => false) c e = saveAttemptOnce now1 c e :=
    fun c => saveLockLoop_noThrow now1 e c 0 2
  rw [h0, h1]
  exact saveAttemptOnce_idem now0 now1 cur e

/-- Claim C9: `calculatePageNumber` is total, returns `"1"` whenever the
comment-number string does not parse to a positive integer (parse failure
or a value at most 0), and otherwise returns the decimal rendering of
`floor((n - 1) / 500) + 1`, stated with mathematical floor division over
the integers; comment 500 maps to page `"1"` and comment 501 to `"2"`. -/
theorem calculatePageNumber_spec :
    (∀ s : String, jsParseInt s = none → calculatePageNumber s = "1") ∧
    (∀ (s : String) (n : Int), jsParseInt s = some n → n ≤ 0 → calculatePageNumber s = "1") ∧
    (∀ (s : String) (n : Int), jsParseInt s = some n → 0 < n →
      calculatePageNumber s = toString (((n - 1) / (PAGINATION_COMMENTS_PER_PAGE : Int)).toNat + 1)) ∧
    PAGINATION_COMMENTS_PER_PAGE = 500 ∧
    calculatePageNumber "500" = "1" ∧ calculatePageNumber "501" = "2" := by
  refine ⟨?_, ?_, ?_, rfl, by decide, by decide⟩
  · intro s h
    simp [calculatePageNumber, h]
  · intro s n h hle
    simp [calculatePageNumber, h, hle]
  · intro s n h hpos
    simp only [calculatePageNumber, h]
    rw [if_neg (by omega)]
    have h2 : n - 1 = ((n.toNat - 1 : Nat) : Int) := by omega
    rw [h2]
    rfl

/-- Concrete instance of `calculatePageNumber_spec`: the string "501"
parses to 501 and lands on page 2 by the floor formula. -/
theorem calculatePageNumber_spec_witness :
    calculatePageNumber "501"
      = toString ((((501 : Int) - 1) / (PAGINATION_COMMENTS_PER_PAGE : Int)).toNat + 1) :=
  calculatePageNumber_spec.2.2.1 "501" 501 (by decide) (by decide)

/-- Claim C5: a crawl invocation that finds the `isCrawling` flag set is a
complete no-op — it returns 0 updated entries and leaves the state (flag
and effect log, hence fetches, persists and accounter adjustments)
untouched — and every invocation leaves the flag as it found it, so a
cycle that starts with the flag clear always ends with it clear, whether
it ran the loop, short-circuited on an empty list, or was rejected. -/
theorem crawl_reentry_guard (env : CrawlEnv) (s : CrawlState) (l : List CommentEntry) :
    (s.isCrawling = true → crawlCommentsOnce env s l = (0, s)) ∧
    (crawlCommentsOnce env s l).2.isCrawling = s.isCrawling := by
  constructor
  · intro h
    simp [crawlCommentsOnce, h]
  · by_cases h : s.isCrawling
    · simp [crawlCommentsOnce, h]
    · simp only [Bool.not_eq_true] at h
      rw [h]
      by_cases hl : l.isEmpty <;> simp [crawlCommentsOnce, h, hl]

/-- Concrete instance of `crawl_reentry_guard`: starting a crawl while one
is already running changes nothing and reports zero updates. -/
theorem crawl_reentry_guard_witness :
    crawlCommentsOnce
        { now := 0, enabledReads := fun _ => some true, fetchResCount := fun _ _ => some 7,
          getComment := fun _ _ => none, saveComment := fun e => some e }
        { isCrawling := true, events := [] } [wEntry]
      = (0, { isCrawling := true, events := [] }) :=
  (crawl_reentry_guard _ _ _).1 rfl

/-- Claim C8: an entry whose resolved previous record carries a
`postedAt` at least `SKIP_AFTER_DAYS` (31) days before the current time
is skipped by the crawl loop: its reconciliation performs no remote
fetch, no persist and no accounter adjustment, contributes no update,
and — with the enabled flag reading true — the loop continues with the
remaining entries exactly as if the entry were absent. -/
theorem crawl_skips_old_entries (env : CrawlEnv) (c : CommentEntry) (t : Int)
    (h1 : ((env.getComment c.topicId c.commentNumber).getD c).postedAt = some t)
    (h2 : (CRAWLER_SKIP_AFTER_DAYS : Int) * (MS_PER_DAY : Int) ≤ (env.now : Int) - t) :
    CRAWLER_SKIP_AFTER_DAYS = 31 ∧
    processComment env c = (0, []) ∧
    (∀ (rest : List CommentEntry) (ridx : Nat), (∀ i, env.enabledReads i = some true) →
      crawlLoop env (c :: rest) ridx = crawlLoop env rest (ridx + 2)) := by
  have hskip : shouldSkipByAge env.now ((env.getComment c.topicId c.commentNumber).getD c) = true := by
    simp [shouldSkipByAge, h1, h2]
  have hproc : processComment env c = (0, []) := by
    rw [processComment]
    simp [hskip]
  refine ⟨rfl, hproc, ?_⟩
  intro rest ridx hen
  rw [crawlLoop]
  simp [hen, hproc]

/-- Concrete instance of `crawl_skips_old_entries`: an entry posted at
time 0 crawled exactly 31 days later is skipped. -/
theorem crawl_skips_old_entries_witness :
    processComment wEnv { wEntry with postedAt := some 0 } = (0, []) :=
  (crawl_skips_old_entries wEnv { wEntry with postedAt := some 0 } 0 rfl
    (by norm_num [CRAWLER_SKIP_AFTER_DAYS, MS_PER_DAY, wEnv])).2.1

/-- Helper: the events of one entry reconciliation take one of five
shapes — nothing (skipped by age), a lone fetch (fetch failed or no
change), fetch then successful save, fetch then successful save then an
adjustment by a non-zero delta, or fetch then a failed save with no
adjustment. -/
lemma processComment_shape (env : CrawlEnv) (c : CommentEntry) :
    ((processComment env c).2 = []) ∨
    ((processComment env c).2 = [CrawlEvent.fetch c.topicId c.commentNumber]) ∨
    (∃ e s, env.saveComment e = some s ∧
      (processComment env c).2
        = [CrawlEvent.fetch c.topicId c.commentNumber, CrawlEvent.save e (some s)]) ∨
    (∃ e s δ, env.saveComment e = some s ∧ δ ≠ some 0 ∧
      (processComment env c).2
        = [CrawlEvent.fetch c.topicId c.commentNumber, CrawlEvent.save e (some s),
           CrawlEvent.adjust δ]) ∨
    (∃ e, env.saveComment e = none ∧
      (processComment env c).2
        = [CrawlEvent.fetch c.topicId c.commentNumber, CrawlEvent.save e none]) := by
  simp only [processComment]
  split
  · left; rfl
  · split
    · right; left; rfl
    · split
      · split
        next saved heq =>
          split
          next hδ =>
            right; right; right; left
            refine ⟨_, _, _, heq, ?_, rfl⟩
            simpa using hδ
          next hδ =>
            right; right; left
            exact ⟨_, _, heq, rfl⟩
        next heq =>
          right; right; right; right
          exact ⟨_, heq, rfl⟩
      · right; left; rfl

/-- Claim C3: during one entry's reconciliation, the unread accounter is
adjusted only when the persist through the Store succeeded (the save
callback returned a record) and the delta is non-zero; when the persist
reported failure no adjustment happens, so the accounted total tracks
exactly what was persisted in that step. -/
theorem crawl_adjust_gated_by_persist (env : CrawlEnv) (c : CommentEntry) :
    (∀ δ, CrawlEvent.adjust δ ∈ (processComment env c).2 →
        δ ≠ some 0 ∧ ∃ e s, env.saveComment e = some s ∧
          CrawlEvent.save e (some s) ∈ (processComment env c).2) ∧
    (∀ e, CrawlEvent.save e none ∈ (processComment env c).2 →
        ∀ δ, CrawlEvent.adjust δ ∉ (processComment env c).2) := by
  rcases processComment_shape env c with h | h | ⟨e, s, hs, h⟩ | ⟨e, s, δ0, hs, hδ0, h⟩ | ⟨e, hs, h⟩ <;>
    rw [h] <;> constructor
  · intro δ hm; exact absurd hm (by simp)
  · intro e' hm; exact absurd hm (by simp)
  · intro δ hm; exact absurd hm (by simp)
  · intro e' hm; exact absurd hm (by simp)
  · intro δ hm; exact absurd hm (by simp)
  · intro e' hm; simp at hm
  · intro δ hm
    simp only [List.mem_cons, List.not_mem_nil, or_false] at hm
    rcases hm with hm | hm | hm
    · exact absurd hm (by simp)
    · exact absurd hm (by simp)
    · cases hm
      exact ⟨hδ0, e, s, hs, by simp⟩
  · intro e' hm; simp at hm
  · intro δ hm; exact absurd hm (by simp)
  · intro e' hm δ; simp

/-- Concrete instance of `crawl_adjust_gated_by_persist`: the sample
reconciliation adjusts by +2 (remote 7 over recorded 5), and indeed a
successful save is part of the same step. -/
theorem crawl_adjust_gated_by_persist_witness :
    (some 2 : Option Int) ≠ some 0 ∧
    ∃ e s, wEnv.saveComment e = some s ∧
      CrawlEvent.save e (some s) ∈ (processComment wEnv wFreshEntry).2 :=
  (crawl_adjust_gated_by_persist wEnv wFreshEntry).1 (some 2) (by decide)

/-- Claim C1 (amended): when the resolved previous record carries
`resCount = p` and `unreadCount = u`, the entry is not age-skipped and
the remote fetch observes `r`, the reconciled unread count is exactly
`max(0, (r - p) + u)` — clamped at 0, hence never negative, and equal to
0 whenever `(r - p) + u ≤ 0` — both when a changed entry is handed to the
Store and when nothing is persisted because nothing changed (then `u`
already equals the formula and `r = p`).  The claim's further assertion
that the result is 0 whenever `r < p` fails when `u` exceeds the
regression; see the counterexample. -/
theorem crawl_unread_formula (env : CrawlEnv) (c : CommentEntry) (p u r : Nat)
    (hskip : shouldSkipByAge env.now ((env.getComment c.topicId c.commentNumber).getD c) = false)
    (hp : ((env.getComment c.topicId c.commentNumber).getD c).resCount = some p)
    (hu : ((env.getComment c.topicId c.commentNumber).getD c).unreadCount = some u)
    (hr : env.fetchResCount c.topicId c.commentNumber = some r) :
    (∀ e, savedEntryOfEvents (processComment env c).2 = some e →
        e.unreadCount = some (Int.toNat (max 0 ((r : Int) - (p : Int) + (u : Int)))) ∧
        e.resCount = some r ∧
        ((r : Int) - (p : Int) + (u : Int) ≤ 0 → e.unreadCount = some 0)) ∧
    (savedEntryOfEvents (processComment env c).2 = none →
        (u : Int) = max 0 ((r : Int) - (p : Int) + (u : Int)) ∧ r = p) := by
  simp only [processComment, hskip, hp, hu, hr, Bool.false_eq_true, if_false,
    Option.getD_some, Option.map_some]
  split
  next hcond =>
    split
    next saved heq =>
      split
      next hd =>
        constructor
        · intro e he
          simp [savedEntryOfEvents] at he
          subst he
          refine ⟨rfl, rfl, ?_⟩
          intro hle
          simp [reconciledEntry]
          omega
        · intro hnone
          simp [savedEntryOfEvents] at hnone
      next hd =>
        constructor
        · intro e he
          simp [savedEntryOfEvents] at he
          subst he
          refine ⟨rfl, rfl, ?_⟩
          intro hle
          simp [reconciledEntry]
          omega
        · intro hnone
          simp [savedEntryOfEvents] at hnone
    next heq =>
      constructor
      · intro e he
        simp [savedEntryOfEvents] at he
        subst he
        refine ⟨rfl, rfl, ?_⟩
        intro hle
        simp [reconciledEntry]
        omega
      · intro hnone
        simp [savedEntryOfEvents] at hnone
  next hcond =>
    constructor
    · intro e he
      simp [savedEntryOfEvents] at he
    · intro hnone
      simp at hcond
      exact ⟨by omega, hcond.2⟩

/-- Counterexample to claim C1 as stated: with previous `replyCount = 8`,
previous `unreadCount = 5` and a regressed remote observation of 6
(so `remoteCount < previousReplyCount`), the reconciled unread count is
`max(0, (6 - 8) + 5) = 3`, not 0. -/
theorem crawl_unread_zero_claim_false :
    (6 : Nat) < 8 ∧
    savedEntryOfEvents (processComment wEnvReg wRegEntry).2
      = some (reconciledEntry wEnvReg.now wRegEntry 6 3) ∧
    (reconciledEntry wEnvReg.now wRegEntry 6 3).unreadCount = some 3 ∧ (3 : Nat) ≠ 0 := by
  decide

/-- Concrete instance of `crawl_unread_formula`: previous
`(replyCount = 5, unreadCount = 5)` observing remote 7 accumulates to
unread 7. -/
theorem crawl_unread_formula_witness :
    (reconciledEntry wEnv.now wFreshEntry 7 7).unreadCount
        = some (Int.toNat (max 0 ((7 : Int) - (5 : Int) + (5 : Int)))) ∧
    (reconciledEntry wEnv.now wFreshEntry 7 7).resCount = some 7 ∧
    (((7 : Int) - (5 : Int) + (5 : Int)) ≤ 0 →
      (reconciledEntry wEnv.now wFreshEntry 7 7).unreadCount = some 0) :=
  (crawl_unread_formula wEnv wFreshEntry 5 5 7 rfl rfl rfl rfl).1
    (reconciledEntry wEnv.now wFreshEntry 7 7) (by decide)

/-- Claim C10: when the resolved previous record misses its `resCount`
(`previousResCount == null`), a successful fetch of `r` hands the Store
an updated entry with `unreadCount = 0` — not `r` — and `resCount = r`. -/
theorem crawl_missing_rescount_resets_unread (env : CrawlEnv) (c : CommentEntry) (r : Nat)
    (hskip : shouldSkipByAge env.now ((env.getComment c.topicId c.commentNumber).getD c) = false)
    (hp : ((env.getComment c.topicId c.commentNumber).getD c).resCount = none)
    (hr : env.fetchResCount c.topicId c.commentNumber = some r) :
    savedEntryOfEvents (processComment env c).2
      = some (reconciledEntry env.now ((env.getComment c.topicId c.commentNumber).getD c) r 0) := by
  simp only [processComment, hskip, hp, hr, Bool.false_eq_true, if_false]
  split
  next hcond =>
    split
    next saved heq => split <;> simp [savedEntryOfEvents]
    next heq => simp [savedEntryOfEvents]
  next hcond =>
    exfalso
    simp at hcond

/-- Concrete instance of `crawl_missing_rescount_resets_unread`: a record
missing `resCount` observing remote 7 is handed to the Store with unread
0 and `resCount = 7`. -/
theorem crawl_missing_rescount_resets_unread_witness :
    savedEntryOfEvents (processComment wEnv wNoResEntry).2
      = some (reconciledEntry wEnv.now wNoResEntry 7 0) :=
  crawl_missing_rescount_resets_unread wEnv wNoResEntry 7 rfl rfl rfl

/-- Helper: deleting the entries of `td` one by one from the cache by key
equals a single filter removing every record whose key occurs in `td`. -/
lemma foldl_deleteKey (td : List CommentEntry) (cache : List CommentEntry) :
    td.foldl (fun acc d => deleteKeyFromCache acc d.topicId d.commentNumber) cache
      = cache.filter (fun c => !(td.any (fun d => entryKey c == entryKey d))) := by
  induction td generalizing cache with
  | nil => simp
  | cons d ds ih =>
    rw [List.foldl_cons, ih]
    rw [deleteKeyFromCache]
    rw [List.filter_filter]
    apply List.filter_congr
    intro c _
    have hk : getCommentKey d.topicId d.commentNumber = entryKey d := rfl
    simp only [hk, List.any_cons, Bool.not_or]
    exact Bool.and_comm _ _

/-- Helper: the LRU comparator is transitive. -/
lemma byUpdatedAt_trans : ∀ a b c : CommentEntry,
    byUpdatedAt a b = true → byUpdatedAt b c = true → byUpdatedAt a c = true := by
  intro a b c
  simp only [byUpdatedAt, decide_eq_true_eq]
  omega

/-- Helper: the LRU comparator is total. -/
lemma byUpdatedAt_total : ∀ a b : CommentEntry, (byUpdatedAt a b || byUpdatedAt b a) = true := by
  intro a b
  simp only [byUpdatedAt, Bool.or_eq_true, decide_eq_true_eq]
  omega

/-- Helper: when the cache (with pairwise-distinct keys) exceeds the
bound, eviction leaves exactly the entries beyond the first
`count - maxEntries` positions of the `updatedAt`-ascending sort. -/
lemma enforceMaxEntriesWith_perm (maxE : Nat) (cache : List CommentEntry)
    (hnd : (cache.map entryKey).Nodup) (hlt : maxE < cache.length) :
    (enforceMaxEntriesWith maxE cache).Perm
      ((cache.mergeSort byUpdatedAt).drop (cache.length - maxE)) := by
  have hperm : (cache.mergeSort byUpdatedAt).Perm cache := List.mergeSort_perm cache byUpdatedAt
  have hnds : ((cache.mergeSort byUpdatedAt).map entryKey).Nodup :=
    ((hperm.map entryKey).symm).nodup hnd
  have hpw : List.Pairwise (fun a b => entryKey a ≠ entryKey b) (cache.mergeSort byUpdatedAt) :=
    List.pairwise_map.mp hnds
  have hcross : ∀ a ∈ (cache.mergeSort byUpdatedAt).take (cache.length - maxE),
      ∀ b ∈ (cache.mergeSort byUpdatedAt).drop (cache.length - maxE), entryKey a ≠ entryKey b := by
    rw [← List.take_append_drop (cache.length - maxE) (cache.mergeSort byUpdatedAt),
      List.pairwise_append] at hpw
    exact hpw.2.2
  rw [enforceMaxEntriesWith, if_neg (by omega)]
  rw [foldl_deleteKey]
  have hnil : ((cache.mergeSort byUpdatedAt).take (cache.length - maxE)).filter
      (fun c => !(((cache.mergeSort byUpdatedAt).take (cache.length - maxE)).any
        (fun d => entryKey c == entryKey d))) = [] := by
    rw [List.filter_eq_nil_iff]
    intro a ha
    have hany : (((cache.mergeSort byUpdatedAt).take (cache.length - maxE)).any
        (fun d => entryKey a == entryKey d)) = true :=
      List.any_eq_true.mpr ⟨a, ha, by simp⟩
    simp [hany]
  have hself : ((cache.mergeSort byUpdatedAt).drop (cache.length - maxE)).filter
      (fun c => !(((cache.mergeSort byUpdatedAt).take (cache.length - maxE)).any
        (fun d => entryKey c == entryKey d))) =
      (cache.mergeSort byUpdatedAt).drop (cache.length - maxE) := by
    rw [List.filter_eq_self]
    intro b hb
    have hany : (((cache.mergeSort byUpdatedAt).take (cache.length - maxE)).any
        (fun d => entryKey b == entryKey d)) = false := by
      rw [List.any_eq_false]
      intro d hd
      simp only [Bool.not_eq_true, beq_eq_false_iff_ne, ne_eq]
      exact fun hbd => hcross d hd b hb (hbd.symm)
    simp [hany]
  have hsplit : ((cache.mergeSort byUpdatedAt).take (cache.length - maxE)
        ++ (cache.mergeSort byUpdatedAt).drop (cache.length - maxE)).filter
      (fun c => !(((cache.mergeSort byUpdatedAt).take (cache.length - maxE)).any
        (fun d => entryKey c == entryKey d))) =
      (cache.mergeSort byUpdatedAt).filter
      (fun c => !(((cache.mergeSort byUpdatedAt).take (cache.length - maxE)).any
        (fun d => entryKey c == entryKey d))) :=
    congrArg (List.filter _) (List.take_append_drop _ _)
  have hfull : (cache.mergeSort byUpdatedAt).filter
      (fun c => !(((cache.mergeSort byUpdatedAt).take (cache.length - maxE)).any
        (fun d => entryKey c == entryKey d))) =
      (cache.mergeSort byUpdatedAt).drop (cache.length - maxE) := by
    rw [← hsplit, List.filter_append, hnil, hself, List.nil_append]
  exact (List.Perm.filter _ hperm.symm).trans (hfull ▸ List.Perm.refl _)

/-- Helper: eviction brings an over-full cache to exactly the bound. -/
lemma enforceMaxEntriesWith_length (maxE : Nat) (cache : List CommentEntry)
    (hnd : (cache.map entryKey).Nodup) (hlt : maxE < cache.length) :
    (enforceMaxEntriesWith maxE cache).length = maxE := by
  have h := (enforceMaxEntriesWith_perm maxE cache hnd hlt).length_eq
  rw [List.length_drop, List.length_mergeSort] at h
  omega

/-- Helper: every evicted entry is at least as old (by `updatedAt`) as
every surviving entry. -/
lemma enforceMaxEntriesWith_oldest (maxE : Nat) (cache : List CommentEntry)
    (hnd : (cache.map entryKey).Nodup) (hlt : maxE < cache.length) :
    ∀ d ∈ (cache.mergeSort byUpdatedAt).take (cache.length - maxE),
      ∀ k ∈ enforceMaxEntriesWith maxE cache, updatedTime d ≤ updatedTime k := by
  intro d hd k hk
  have hk2 : k ∈ (cache.mergeSort byUpdatedAt).drop (cache.length - maxE) :=
    ((enforceMaxEntriesWith_perm maxE cache hnd hlt).mem_iff).mp hk
  have hsorted : List.Pairwise (fun a b => byUpdatedAt a b = true) (cache.mergeSort byUpdatedAt) :=
    List.sorted_mergeSort byUpdatedAt_trans byUpdatedAt_total cache
  rw [← List.take_append_drop (cache.length - maxE) (cache.mergeSort byUpdatedAt),
    List.pairwise_append] at hsorted
  have := hsorted.2.2 d hd k hk2
  simpa [byUpdatedAt] using this

/-- Helper: `Map.set` keeps cache keys pairwise distinct. -/
lemma cacheSet_keys (cache : List CommentEntry) (e : CommentEntry)
    (hnd : (cache.map entryKey).Nodup) :
    ((cacheSet cache e).map entryKey).Nodup := by
  rw [cacheSet]
  split
  next hin =>
    have : (cache.map (fun c => if entryKey c == entryKey e then e else c)).map entryKey
        = cache.map entryKey := by
      rw [List.map_map]
      apply List.map_congr_left
      intro a _
      by_cases hae : entryKey a == entryKey e
      · simp only [Function.comp_apply, hae, if_pos]
        exact (beq_iff_eq.mp hae).symm
      · simp only [Function.comp_apply, hae, if_neg]
        rfl
    rw [this]
    exact hnd
  next hin =>
    rw [List.map_append]
    rw [List.nodup_append]
    refine ⟨hnd, by simp, ?_⟩
    intro x hx hx2
    simp only [List.map_cons, List.map_nil, List.mem_singleton] at hx2
    subst hx2
    rw [List.mem_map] at hx
    obtain ⟨c, hc, hck⟩ := hx
    have : cache.any (fun c => entryKey c == entryKey e) = true :=
      List.any_eq_true.mpr ⟨c, hc, by simp [hck]⟩
    simp [this] at hin

/-- Helper: `Map.set` grows the cache by at most one entry. -/
lemma cacheSet_length (cache : List CommentEntry) (e : CommentEntry) :
    (cacheSet cache e).length ≤ cache.length + 1 := by
  rw [cacheSet]
  split <;> simp

/-- Claim C4: the configured maximum is 1000; whenever the entry count
exceeds the maximum, eviction deletes exactly `count - max` entries —
those with the oldest `updatedAt` values, taken in ascending order of the
stable sort — leaving exactly `max` entries, each at least as recently
updated as anything deleted; and consequently a `saveComment` (put)
starting from a within-bounds cache always ends within bounds, the
post-insert eviction running after every successful put. -/
theorem capacity_eviction_law :
    COMMENT_ENTRY_MAX_ENTRIES = 1000 ∧
    (∀ (maxEntries : Nat) (cache : List CommentEntry),
      (cache.map entryKey).Nodup → maxEntries < cache.length →
      (enforceMaxEntriesWith maxEntries cache).length = maxEntries ∧
      (enforceMaxEntriesWith maxEntries cache).Perm
        ((cache.mergeSort byUpdatedAt).drop (cache.length - maxEntries)) ∧
      (∀ d ∈ (cache.mergeSort byUpdatedAt).take (cache.length - maxEntries),
       ∀ k ∈ enforceMaxEntriesWith maxEntries cache, updatedTime d ≤ updatedTime k)) ∧
    (∀ (now : Nat) (throws : Nat → Bool) (cache : List CommentEntry) (e : CommentEntry),
      (cache.map entryKey).Nodup → cache.length ≤ COMMENT_ENTRY_MAX_ENTRIES →
      ((serviceSaveComment now throws cache e).2).length ≤ COMMENT_ENTRY_MAX_ENTRIES) := by
  refine ⟨rfl, ?_, ?_⟩
  · intro maxE cache hnd hlt
    exact ⟨enforceMaxEntriesWith_length maxE cache hnd hlt,
      enforceMaxEntriesWith_perm maxE cache hnd hlt,
      enforceMaxEntriesWith_oldest maxE cache hnd hlt⟩
  · intro now throws cache e hnd hle
    rw [serviceSaveComment]
    split
    next u heq =>
      simp only
      by_cases hc : (cacheSet cache u).length ≤ COMMENT_ENTRY_MAX_ENTRIES
      · rw [enforceMaxEntries, enforceMaxEntriesWith, if_pos hc]
        exact hc
      · rw [enforceMaxEntries]
        rw [enforceMaxEntriesWith_length COMMENT_ENTRY_MAX_ENTRIES (cacheSet cache u)
          (cacheSet_keys cache u hnd) (by omega)]
    next heq => exact hle
    next heq => exact hle

unseal List.merge List.mergeSort in
/-- Concrete instance of `capacity_eviction_law` (the N+1 law at N = 2):
inserting a third entry over bound 2 deletes exactly the entry with the
oldest `updatedAt` (stamp 5), keeping the stamps 10 and 7. -/
theorem capacity_eviction_law_witness :
    (enforceMaxEntriesWith 2
        [wEntry, { wEntry with commentNumber := "46", updatedAt := some 5 },
         { wEntry with commentNumber := "47", updatedAt := some 7 }]).length = 2 ∧
    enforceMaxEntriesWith 2
        [wEntry, { wEntry with commentNumber := "46", updatedAt := some 5 },
         { wEntry with commentNumber := "47", updatedAt := some 7 }]
      = [wEntry, { wEntry with commentNumber := "47", updatedAt := some 7 }] :=
  ⟨(capacity_eviction_law.2.1 2
      [wEntry, { wEntry with commentNumber := "46", updatedAt := some 5 },
       { wEntry with commentNumber := "47", updatedAt := some 7 }]
      (by decide) (by decide)).1,
   by decide⟩
